import Mathlib

/-!
Verification of the multi-tier generation orchestrator of `yvideo-factory`
(`src/providers/llm/gemini.py` and `src/workers/llm/storyboard.py`) against its
natural-language specification.  The Python code is shallowly embedded: pure
helpers become Lean functions over `String`/`List`; the remote backend is
modelled as an explicit oracle of responses; Python dicts parsed from JSON
become association lists over an embedded `Json` type.
-/

/-! ## Python-style string helpers -/

/-- Characters stripped by Python `str.strip()` / matched by `\s` (ASCII part). -/
def isPySpace (c : Char) : Bool :=
  c = ' ' || c = '\t' || c = '\n' || c = '\r' || c = '\x0b' || c = '\x0c'

/-- Python `s.strip()` on a character list. -/
def pyStripList (l : List Char) : List Char :=
  ((l.dropWhile isPySpace).reverse.dropWhile isPySpace).reverse

/-- Python `s.strip()`. -/
def pyStrip (s : String) : String :=
  String.mk (pyStripList s.data)

/-- Python truthiness of `s.strip()` being empty: `not s.strip()`. -/
def pyBlank (s : String) : Bool :=
  s.data.all isPySpace

/-- Test `subAt sub l`: `sub` occurs at the head of `l`. -/
def subAt : List Char → List Char → Bool
  | [], _ => true
  | _ :: _, [] => false
  | a :: as, b :: bs => a = b && subAt as bs

/-- Test `subIn sub l`: `sub` occurs contiguously somewhere in `l`. -/
def subIn (sub : List Char) : List Char → Bool
  | [] => sub.isEmpty
  | b :: bs => subAt sub (b :: bs) || subIn sub bs

/-- Python substring test `sub in s`. -/
def pyContains (s sub : String) : Bool :=
  subIn sub.data s.data

/-- Python `s.lower()` (the strings involved are ASCII). -/
def pyLower (s : String) : String :=
  String.mk (s.data.map Char.toLower)

/-! ## Transient Fault Classifier (`gemini.py`, `TRANSIENT_HINTS` / `_is_transient_error`) -/

/-- The fixed keyword tuple `TRANSIENT_HINTS` from `gemini.py`, verbatim. -/
def TRANSIENT_HINTS : List String :=
  [ "code: 429", "status: RESOURCE_EXHAUSTED", "rate limit",
    "code: 500", "code: 502", "code: 503", "code: 504",
    "status: INTERNAL", "status: UNAVAILABLE", "status: DEADLINE_EXCEEDED",
    "temporarily unavailable", "connection reset", "timeout",
    "rst_stream", "goaway" ]

/-- Embeds `_is_transient_error`: lowercase the error message and test whether any
hint of `TRANSIENT_HINTS` occurs in it as a substring. -/
def is_transient_error (msg : String) : Bool :=
  let low := pyLower msg
  TRANSIENT_HINTS.any (fun h => pyContains low h)

theorem is_transient_test_timeout : is_transient_error "Read TIMEOUT while waiting" = true := by
  decide

theorem is_transient_test_plain : is_transient_error "invalid argument" = false := by
  decide

/-- Claim C3 (code bug evidence): the hint "status: RESOURCE_EXHAUSTED" is in
the transient keyword list, yet an error message containing exactly that text
(in the original upper case, or in any other case) is classified as permanent:
the classifier lowercases the message before comparing it with hints that
contain upper-case letters, so those hints can never match.  The same holds
for "status: UNAVAILABLE" and "status: DEADLINE_EXCEEDED". -/
theorem C3_transient_uppercase_hints_never_match :
    "status: RESOURCE_EXHAUSTED" ∈ TRANSIENT_HINTS ∧
    "status: UNAVAILABLE" ∈ TRANSIENT_HINTS ∧
    "status: DEADLINE_EXCEEDED" ∈ TRANSIENT_HINTS ∧
    is_transient_error "status: RESOURCE_EXHAUSTED" = false ∧
    is_transient_error "status: resource_exhausted" = false ∧
    is_transient_error "status: UNAVAILABLE" = false ∧
    is_transient_error "status: DEADLINE_EXCEEDED" = false ∧
    is_transient_error "error code: 429 received" = true := by
  refine ⟨by decide, by decide, by decide, by decide, by decide, by decide, by decide, by decide⟩

/-! ## Single-shot generation with fallback (`gemini.py`, `generate_with_fallback`)

The remote backend (`client.models.generate_content` wrapped in
`_extract_text_and_reason`) is modelled as an oracle indexed by a global call
counter: each underlying network call either yields a normalized
`(text, finish-reason)` pair or raises an exception carrying a message. -/

/-- Outcome of one underlying backend call, after `_extract_text_and_reason`. -/
inductive CallOutcome where
  | ok (text reason : String)
  | err (msg : String)
deriving Repr, DecidableEq

/-- The backend, as a trace oracle over a global call counter. -/
abbrev Oracle := Nat → CallOutcome

/-- Embeds `_call_with_retry(fn, retries)`: re-invoke on transient exceptions,
up to `retries` additional attempts; re-raise otherwise.  The first argument
after the oracle is the number of retries still allowed, the second the call
counter.  Returns the result (or the last exception) and the advanced counter. -/
def callWithRetry (oracle : Oracle) : Nat → Nat → Except String (String × String) × Nat
  | 0, k =>
    match oracle k with
    | .ok t r => (.ok (t, r), k + 1)
    | .err m => (.error m, k + 1)
  | n + 1, k =>
    match oracle k with
    | .ok t r => (.ok (t, r), k + 1)
    | .err m =>
      if is_transient_error m then callWithRetry oracle n (k + 1)
      else (.error m, k + 1)

/-- Concatenation of a list of strings (Python `"".join`). -/
def concatAll : List String → String
  | [] => ""
  | s :: ss => s ++ concatAll ss

/-- Outcome of the continuation while-loop in `generate_with_fallback`:
`ret` = the function returned the merged text from inside the loop;
`fell` = the loop ended (`break` or budget exhausted) with buffer `total`,
to be checked by the post-loop code; `exc` = an exception escaped the loop
(it is caught by the per-candidate handler). -/
inductive ContOut where
  | ret (text : String)
  | fell (total : String)
  | exc (msg : String)
deriving Repr, DecidableEq

/-- The continuation loop (`while seg < seg_limit:` in `generate_with_fallback`),
with the accumulated buffer `total` kept as one string (appending an empty
segment text is a no-op, exactly as in the Python list-of-segments buffer).
Also returns the advanced call counter and the number of follow-up
requests issued. -/
def contLoop (oracle : Oracle) : Nat → Nat → String → ContOut × Nat × Nat
  | k, 0, total => (.fell total, k, 0)
  | k, fuel + 1, total =>
    match callWithRetry oracle 4 k with
    | (.error m, k1) => (.exc m, k1, 1)
    | (.ok (st, sr), k1) =>
      let total1 := total ++ st
      if sr = "STOP" then
        if pyBlank total1 then (.fell total1, k1, 1) else (.ret total1, k1, 1)
      else if sr = "MAX_TOKENS" ∨ sr = "UNKNOWN" then
        match contLoop oracle k1 fuel total1 with
        | (res, k2, c) => (res, k2, c + 1)
      else (.fell total1, k1, 1)

/-- One iteration of the candidate loop of `generate_with_fallback`: try model
`name`, returning the successful text (if any), the failure strings this
candidate appended, and the advanced call counter. -/
def tryCandidate (oracle : Oracle) (name onMax : String) (segLimit : Nat) (k : Nat) :
    Option String × List String × Nat :=
  match callWithRetry oracle 4 k with
  | (.error m, k1) => (none, [name ++ ": EXCEPTION " ++ m], k1)
  | (.ok (txt, reason), k1) =>
    if reason = "STOP" ∧ pyBlank txt = false then (some txt, [], k1)
    else if reason = "MAX_TOKENS" ∨ reason = "UNKNOWN" then
      if pyBlank txt then
        (none, [name ++ ": finish_reason=" ++ reason ++ ", empty_first_chunk"], k1)
      else if onMax = "return" then (some txt, [], k1)
      else if onMax = "raise" then
        (none, [name ++ ": finish_reason=" ++ reason ++ ", partial_len=" ++ toString txt.length], k1)
      else
        match contLoop oracle k1 segLimit txt with
        | (.ret t, k2, _) => (some t, [], k2)
        | (.exc m, k2, _) => (none, [name ++ ": EXCEPTION " ++ m], k2)
        | (.fell total, k2, _) =>
          if pyBlank total = false then (some total, [], k2)
          else (none, [name ++ ": finish_reason=" ++ reason ++ ", parts_empty_after_continue"], k2)
    else if pyBlank txt then
      let f0 := name ++ ": finish_reason=" ++ (if reason = "" then "UNKNOWN" else reason) ++ ", empty_text"
      match callWithRetry oracle 4 k1 with
      | (.error m, k2) => (none, [f0, name ++ ": patch_retry_exception " ++ m], k2)
      | (.ok (pt, pr), k2) =>
        if pyBlank pt = false then (some pt, [f0], k2)
        else (none, [f0, name ++ ": patch_empty_text (finish_reason=" ++ pr ++ ")"], k2)
    else (some txt, [], k1)

/-- The candidate loop of `generate_with_fallback`, accumulating failures. -/
def genFallbackAux (oracle : Oracle) (onMax : String) (segLimit : Nat) :
    List String → Nat → List String → String × String × List String
  | [], _, fails => ("", "", fails)
  | name :: rest, k, fails =>
    match tryCandidate oracle name onMax segLimit k with
    | (some t, fs, _) => (t, name, fails ++ fs)
    | (none, fs, k1) => genFallbackAux oracle onMax segLimit rest k1 (fails ++ fs)

/-- Embeds `generate_with_fallback(prompt, ...)`: returns `(text, used_model, failures)`. -/
def generate_with_fallback (oracle : Oracle) (candidates : List String)
    (onMax : String) (segLimit : Nat) : String × String × List String :=
  genFallbackAux oracle onMax segLimit candidates 0 []

theorem pyBlank_append (a b : String) : pyBlank (a ++ b) = (pyBlank a && pyBlank b) := by
  simp [pyBlank, String.data_append, List.all_append]

/-- The follow-up responses the oracle serves starting from counter `k`. -/
def respondsWith (oracle : Oracle) : Nat → List (String × String) → Prop
  | _, [] => True
  | k, p :: ps => ∃ k1, callWithRetry oracle 4 k = (.ok p, k1) ∧ respondsWith oracle k1 ps

/-- Helper: a continuation run whose follow-ups are `pre` (all truncated)
followed by one STOP segment returns the ordered concatenation and issues
exactly `pre.length + 1` follow-up requests. -/
theorem contLoop_script (oracle : Oracle) (tj : String) :
    ∀ (pre : List (String × String)) (k fuel : Nat) (total : String),
      respondsWith oracle k (pre ++ [(tj, "STOP")]) →
      (∀ p ∈ pre, p.2 = "MAX_TOKENS" ∨ p.2 = "UNKNOWN") →
      pre.length < fuel →
      pyBlank total = false →
      ∃ k2, contLoop oracle k fuel total =
        (.ret (total ++ concatAll (pre.map Prod.fst) ++ tj), k2, pre.length + 1)
  | [], k, fuel, total, hs, _, hlen, htot => by
    obtain ⟨fuel, rfl⟩ : ∃ f, fuel = f + 1 := ⟨fuel - 1, by omega⟩
    obtain ⟨k1, hcall, -⟩ := hs
    refine ⟨k1, ?_⟩
    unfold contLoop
    rw [hcall]
    have hb : pyBlank (total ++ tj) = false := by
      rw [pyBlank_append, htot]; rfl
    simp [hb, concatAll]
  | (s0, r0) :: ps, k, fuel, total, hs, hpre, hlen, htot => by
    obtain ⟨fuel, rfl⟩ : ∃ f, fuel = f + 1 := ⟨fuel - 1, by omega⟩
    obtain ⟨k1, hcall, hs1⟩ := hs
    have hr0 : r0 = "MAX_TOKENS" ∨ r0 = "UNKNOWN" := hpre (s0, r0) (List.mem_cons_self _ _)
    have hstop : ¬(r0 = "STOP") := by
      rcases hr0 with h | h <;> simp [h]
    have htot1 : pyBlank (total ++ s0) = false := by
      rw [pyBlank_append, htot]; rfl
    have hlen1 : ps.length < fuel := by
      simpa using Nat.lt_of_succ_lt_succ (by simpa using hlen)
    obtain ⟨k2, ih⟩ := contLoop_script oracle tj ps k1 fuel (total ++ s0) hs1
      (fun p hp => hpre p (List.mem_cons_of_mem _ hp)) hlen1 htot1
    refine ⟨k2, ?_⟩
    unfold contLoop
    simp only [hcall]
    rw [if_neg hstop, if_pos hr0, ih]
    simp [concatAll, String.append_assoc]

/-- Helper: the continuation loop never issues more follow-up requests than
its segment budget. -/
theorem contLoop_count_le (oracle : Oracle) :
    ∀ (fuel k : Nat) (total : String), (contLoop oracle k fuel total).2.2 ≤ fuel
  | 0, k, total => by simp [contLoop]
  | fuel + 1, k, total => by
    unfold contLoop
    cases h : callWithRetry oracle 4 k with
    | mk r k1 =>
      cases r with
      | error m => simp
      | ok p =>
        cases p with
        | mk st sr =>
          simp only []
          by_cases hstop : sr = "STOP"
          · rw [if_pos hstop]
            split <;> simp
          · rw [if_neg hstop]
            by_cases hmt : sr = "MAX_TOKENS" ∨ sr = "UNKNOWN"
            · rw [if_pos hmt]
              have ih := contLoop_count_le oracle fuel k1 (total ++ st)
              rcases hC : contLoop oracle k1 fuel (total ++ st) with ⟨res, k2, c⟩
              rw [hC] at ih
              simp only [hC]
              simp at ih ⊢
              omega
            · rw [if_neg hmt]; simp

/-- Claim C6: if the first candidate's (retry-wrapped) call returns finish
reason STOP with non-blank text, `generate_with_fallback` returns that text,
the used model is the first candidate, and the failure log is empty. -/
theorem C6_first_candidate_stop (oracle : Oracle) (c : String) (rest : List String)
    (onMax : String) (segLimit : Nat) (t : String) (k1 : Nat)
    (hcall : callWithRetry oracle 4 0 = (.ok (t, "STOP"), k1))
    (ht : pyBlank t = false) :
    generate_with_fallback oracle (c :: rest) onMax segLimit = (t, c, []) := by
  unfold generate_with_fallback genFallbackAux tryCandidate
  simp only [hcall]
  rw [if_pos (⟨trivial, ht⟩ : True ∧ pyBlank t = false)]
  rfl

/-- Witness for C6 at a concrete oracle. -/
def oracleC6 : Oracle := fun _ => .ok "pong" "STOP"

theorem C6_first_candidate_stop_witness :
    generate_with_fallback oracleC6 ["models/gemini-2.5-pro", "models/gemini-2.5-flash"]
      "continue" 4 = ("pong", "models/gemini-2.5-pro", []) :=
  C6_first_candidate_stop oracleC6 "models/gemini-2.5-pro" ["models/gemini-2.5-flash"]
    "continue" 4 "pong" 1 rfl (by decide)

/-- Claim C2: under policy "continue", when the first call is truncated
(MAX_TOKENS/UNKNOWN) with non-blank text and the follow-ups are `pre`
(all truncated) followed by one STOP segment, the returned text is exactly
the ordered concatenation of the first segment and every follow-up segment
up to and including the first STOP, no segment duplicated or dropped; the
number of follow-up requests equals `pre.length + 1` and never exceeds the
`max_continue_segments` budget (third conjunct: the bound holds for every
continuation run whatsoever). -/
theorem C2_continuation_concat (oracle : Oracle) (c : String) (rest : List String)
    (segLimit : Nat) (t0 r0 : String) (k1 : Nat) (pre : List (String × String)) (tj : String)
    (hfirst : callWithRetry oracle 4 0 = (.ok (t0, r0), k1))
    (hr0 : r0 = "MAX_TOKENS" ∨ r0 = "UNKNOWN")
    (ht0 : pyBlank t0 = false)
    (hscript : respondsWith oracle k1 (pre ++ [(tj, "STOP")]))
    (hpre : ∀ p ∈ pre, p.2 = "MAX_TOKENS" ∨ p.2 = "UNKNOWN")
    (hlen : pre.length < segLimit) :
    generate_with_fallback oracle (c :: rest) "continue" segLimit
        = (t0 ++ concatAll (pre.map Prod.fst) ++ tj, c, []) ∧
      (contLoop oracle k1 segLimit t0).2.2 = pre.length + 1 ∧
      ∀ (fuel k : Nat) (total : String), (contLoop oracle k fuel total).2.2 ≤ fuel := by
  obtain ⟨k2, hloop⟩ := contLoop_script oracle tj pre k1 segLimit t0 hscript hpre hlen ht0
  have hns : ¬(r0 = "STOP" ∧ pyBlank t0 = false) := by
    rcases hr0 with h | h <;> simp [h]
  refine ⟨?_, by rw [hloop], fun fuel k total => contLoop_count_le oracle fuel k total⟩
  unfold generate_with_fallback genFallbackAux tryCandidate
  simp only [hfirst]
  rw [if_neg hns, if_pos hr0, if_neg (by simp [ht0]),
    if_neg (by decide : ¬("continue" = "return")), if_neg (by decide : ¬("continue" = "raise")),
    hloop]
  rfl

/-- Witness oracle for C2: first call truncated, one truncated follow-up,
then a STOP follow-up. -/
def oracleC2 : Oracle := fun k =>
  match k with
  | 0 => .ok "A" "MAX_TOKENS"
  | 1 => .ok "B" "MAX_TOKENS"
  | 2 => .ok "C" "STOP"
  | _ => .err "unused"

theorem C2_continuation_concat_witness :
    generate_with_fallback oracleC2 ["m1", "m2"] "continue" 4 = ("ABC", "m1", []) ∧
      (contLoop oracleC2 1 4 "A").2.2 = 2 ∧ 2 ≤ 4 := by
  have h := C2_continuation_concat oracleC2 "m1" ["m2"] 4 "A" "MAX_TOKENS" 1
    [("B", "MAX_TOKENS")] "C" rfl (Or.inl rfl) (by decide)
    ⟨2, rfl, 3, rfl, trivial⟩ (by simp) (by decide)
  exact ⟨h.1, h.2.1, by decide⟩

/-- Claim C7 (amended): under policy "continue", a follow-up that returns
empty text does NOT make the assembler give up on the candidate.  With a
truncated/unknown reason the loop simply proceeds to further follow-ups
(budget permitting), and a later STOP still yields the concatenated text as
a success; the follow-up count includes the empty segment.  (Give-up happens
only when the accumulated buffer is blank after the loop ends.) -/
theorem C7_empty_followup_does_not_give_up (oracle : Oracle) (c : String) (rest : List String)
    (segLimit : Nat) (t0 r0 re : String) (k1 : Nat) (pre : List (String × String)) (tj : String)
    (hfirst : callWithRetry oracle 4 0 = (.ok (t0, r0), k1))
    (hr0 : r0 = "MAX_TOKENS" ∨ r0 = "UNKNOWN")
    (ht0 : pyBlank t0 = false)
    (hre : re = "MAX_TOKENS" ∨ re = "UNKNOWN")
    (hscript : respondsWith oracle k1 ((("", re) :: pre) ++ [(tj, "STOP")]))
    (hpre : ∀ p ∈ pre, p.2 = "MAX_TOKENS" ∨ p.2 = "UNKNOWN")
    (hlen : pre.length + 1 < segLimit) :
    generate_with_fallback oracle (c :: rest) "continue" segLimit
        = (t0 ++ concatAll (pre.map Prod.fst) ++ tj, c, []) ∧
      (contLoop oracle k1 segLimit t0).2.2 = pre.length + 2 := by
  have hpre1 : ∀ p ∈ ("", re) :: pre, p.2 = "MAX_TOKENS" ∨ p.2 = "UNKNOWN" := by
    intro p hp
    rcases List.mem_cons.mp hp with h | h
    · subst h; exact hre
    · exact hpre p h
  have hlen1 : (("", re) :: pre).length < segLimit := by simpa using hlen
  obtain ⟨k2, hloop⟩ := contLoop_script oracle tj (("", re) :: pre) k1 segLimit t0
    hscript hpre1 hlen1 ht0
  have hmap : concatAll ((("", re) :: pre).map Prod.fst) = concatAll (pre.map Prod.fst) := by
    simp [concatAll]
  rw [hmap] at hloop
  have hns : ¬(r0 = "STOP" ∧ pyBlank t0 = false) := by
    rcases hr0 with h | h <;> simp [h]
  refine ⟨?_, by rw [hloop]; simp⟩
  unfold generate_with_fallback genFallbackAux tryCandidate
  simp only [hfirst]
  rw [if_neg hns, if_pos hr0, if_neg (by simp [ht0]),
    if_neg (by decide : ¬("continue" = "return")), if_neg (by decide : ¬("continue" = "raise")),
    hloop]
  rfl

/-- Concrete oracle refuting claim C7 as stated: truncated first call, then
an empty-text truncated follow-up, then a STOP follow-up. -/
def oracleC7 : Oracle := fun k =>
  match k with
  | 0 => .ok "part1" "MAX_TOKENS"
  | 1 => .ok "" "MAX_TOKENS"
  | 2 => .ok "part2" "STOP"
  | _ => .err "unused"

/-- Counterexample to claim C7: follow-up #1 returns empty text, yet the
assembler does not give up on the candidate — a second follow-up request is
issued (count = 2) and the candidate succeeds with the concatenated text. -/
theorem C7_counterexample :
    generate_with_fallback oracleC7 ["m"] "continue" 4 = ("part1part2", "m", []) ∧
      (contLoop oracleC7 1 4 "part1").2.2 = 2 := by
  refine ⟨by decide, by decide⟩

/-- Witness for the amended C7 theorem at a concrete input. -/
theorem C7_empty_followup_does_not_give_up_witness :
    generate_with_fallback oracleC7 ["m", "m2"] "continue" 3 = ("part1part2", "m", []) ∧
      (contLoop oracleC7 1 3 "part1").2.2 = 2 := by
  have h := C7_empty_followup_does_not_give_up oracleC7 "m" ["m2"] 3
    "part1" "MAX_TOKENS" "MAX_TOKENS" 1 [] "part2" rfl (Or.inl rfl) (by decide) (Or.inl rfl)
    (by exact ⟨2, rfl, 3, rfl, trivial⟩) (by simp) (by decide)
  refine ⟨?_, h.2⟩
  have h1 := h.1
  simpa [concatAll] using h1

/-- Claim C10: invoked with an empty candidate list, `generate_with_fallback`
returns empty text, empty model identifier, and an empty failure log. -/
theorem C10_empty_candidates (oracle : Oracle) (onMax : String) (segLimit : Nat) :
    generate_with_fallback oracle [] onMax segLimit = ("", "", []) := rfl

/-! ## Streaming with fallback (`gemini.py`, `stream_with_fallback`)

Generators are modelled as the (finite, ordered) lists of chunks they yield;
the peek-then-re-chain pattern (`re1`/`re2`/`rechain`) is head/tail
decomposition followed by re-consing, which the definitions below perform
explicitly. -/

/-- One event of a provider stream: a direct `text` field, plus the text
parts of the first candidate's content (used when `text` is empty). -/
structure StreamEvent where
  text : String
  parts : List String
deriving Repr, DecidableEq

/-- The chunk that the loop body of `try_stream_once` yields for one event,
if any: the non-empty `text`, else the concatenation of the non-empty part
texts when there is at least one. -/
def chunkOf (ev : StreamEvent) : Option String :=
  if ev.text ≠ "" then some ev.text
  else
    match ev.parts.filter (fun t => t ≠ "") with
    | [] => none
    | t :: ts => some (concatAll (t :: ts))

/-- Embeds `try_stream_once(name)`: the ordered chunk sequence produced from the
underlying stream's events. -/
def tryStreamOnce (events : List StreamEvent) : List String :=
  events.filterMap chunkOf

/-- One streaming candidate: its model name, the events of the first stream
attempt, the events of the single reconnect attempt, and the text returned
by the non-streaming warm-up call used as a last resort. -/
structure StreamCand where
  name : String
  events1 : List StreamEvent
  events2 : List StreamEvent
  warmText : String

/-- Embeds `try_stream(name)`: peek the first chunk of the first attempt; if there
is none, wait briefly and reconnect exactly once; re-chain the peeked chunk
ahead of the remainder; raise "stream_no_events" when both attempts yield
no chunk at all. -/
def tryStream (c : StreamCand) : Except String (List String) :=
  match tryStreamOnce c.events1 with
  | [] =>
    match tryStreamOnce c.events2 with
    | [] => .error "stream_no_events"
    | first :: rest => .ok (first :: rest)
  | first :: rest => .ok (first :: rest)

/-- Embeds `stream_with_fallback(prompt)`: iterate candidates in order; on streaming
success peek the first chunk and re-chain it ahead of the remainder; on
failure log STREAM_FAIL, try the non-streaming warm-up once, and if that is
blank log NON_STREAM_FAIL and move to the next candidate. -/
def stream_with_fallback : List StreamCand → List String → List String × String × List String
  | [], fails => ([], "", fails)
  | c :: cs, fails =>
    match tryStream c with
    | .ok (first :: rest) => (first :: rest, c.name, fails)
    | .ok [] =>
      if pyBlank c.warmText then
        stream_with_fallback cs (fails ++ [c.name ++ ": STREAM_FAIL stream_no_events",
          c.name ++ ": NON_STREAM_FAIL single_shot_empty"])
      else ([c.warmText], c.name, fails ++ [c.name ++ ": STREAM_FAIL stream_no_events"])
    | .error e =>
      if pyBlank c.warmText then
        stream_with_fallback cs (fails ++ [c.name ++ ": STREAM_FAIL " ++ e,
          c.name ++ ": NON_STREAM_FAIL single_shot_empty"])
      else ([c.warmText], c.name, fails ++ [c.name ++ ": STREAM_FAIL " ++ e])

/-- The underlying non-empty chunk sequence of the attempt a successful
streaming candidate actually streams from: the first attempt's chunks when
present, otherwise the reconnect attempt's chunks. -/
def streamSourceChunks (c : StreamCand) : List String :=
  match tryStreamOnce c.events1 with
  | [] => tryStreamOnce c.events2
  | first :: rest => first :: rest

/-- Claim C8: whenever the streaming path succeeds on a candidate (some
attempt yields at least one chunk), the chunk sequence handed to the
consumer equals the ordered sequence of non-empty chunks of the underlying
stream for that candidate: the peeked first chunk is re-chained ahead of
the remainder, so no chunk is lost, duplicated, or reordered. -/
theorem C8_stream_peek_preserves_chunks (c : StreamCand) (cs : List StreamCand)
    (fails : List String) (hsucc : streamSourceChunks c ≠ []) :
    stream_with_fallback (c :: cs) fails = (streamSourceChunks c, c.name, fails) := by
  cases h1 : tryStreamOnce c.events1 with
  | cons f r => simp [stream_with_fallback, tryStream, streamSourceChunks, h1]
  | nil =>
    cases h2 : tryStreamOnce c.events2 with
    | cons f r => simp [stream_with_fallback, tryStream, streamSourceChunks, h1, h2]
    | nil =>
      exact absurd (by simp [streamSourceChunks, h1, h2]) hsucc

/-- Witness candidate for C8: first attempt yields a direct-text chunk, then
a parts-aggregated chunk. -/
def streamCandC8 : StreamCand :=
  { name := "models/gemini-2.5-pro"
    events1 := [⟨"a", []⟩, ⟨"", ["b", "c"]⟩, ⟨"", []⟩]
    events2 := []
    warmText := "" }

theorem C8_stream_peek_preserves_chunks_witness :
    stream_with_fallback [streamCandC8] [] = (["a", "bc"], "models/gemini-2.5-pro", []) := by
  have h := C8_stream_peek_preserves_chunks streamCandC8 [] [] (by decide)
  simpa [streamSourceChunks, tryStreamOnce, chunkOf, streamCandC8, concatAll] using h

/-! ## Embedded JSON values and `json.loads`

`storyboard.py` manipulates Python values produced by `json.loads`.  The
fragment of Python data reachable that way is embedded as `Json`; numbers
keep their source lexeme (numeric fidelity beyond that is not needed by any
property below). -/

/-- A JSON value as produced by `json.loads`. -/
inductive Json where
  | null
  | bool (b : Bool)
  | num (lexeme : String)
  | str (s : String)
  | arr (xs : List Json)
  | obj (kvs : List (String × Json))
deriving Repr

/-- Structural equality of JSON values (Python `==` on the parsed data). -/
def Json.beq : Json → Json → Bool
  | .null, .null => true
  | .bool a, .bool b => a == b
  | .num a, .num b => a == b
  | .str a, .str b => a == b
  | .arr xs, .arr ys => beqL xs ys
  | .obj xs, .obj ys => beqO xs ys
  | _, _ => false
where
  beqL : List Json → List Json → Bool
    | [], [] => true
    | x :: xs, y :: ys => Json.beq x y && beqL xs ys
    | _, _ => false
  beqO : List (String × Json) → List (String × Json) → Bool
    | [], [] => true
    | (k1, v1) :: xs, (k2, v2) :: ys => k1 == k2 && Json.beq v1 v2 && beqO xs ys
    | _, _ => false

instance : BEq Json := ⟨Json.beq⟩

/-- JSON whitespace accepted between tokens by `json.loads`. -/
def jsonWsChar (c : Char) : Bool :=
  c = ' ' || c = '\t' || c = '\n' || c = '\r'

/-- Skip JSON whitespace. -/
def skipWs (cs : List Char) : List Char :=
  cs.dropWhile jsonWsChar

/-- Hexadecimal digit value. -/
def hexVal (c : Char) : Option Nat :=
  if '0' ≤ c ∧ c ≤ '9' then some (c.toNat - '0'.toNat)
  else if 'a' ≤ c ∧ c ≤ 'f' then some (c.toNat - 'a'.toNat + 10)
  else if 'A' ≤ c ∧ c ≤ 'F' then some (c.toNat - 'A'.toNat + 10)
  else none

/-- Parse the body of a JSON string after the opening quote; returns the
decoded string and the remaining characters after the closing quote. -/
def parseStrBody : Nat → List Char → List Char → Option (String × List Char)
  | 0, _, _ => none
  | _ + 1, _, [] => none
  | fuel + 1, acc, c :: cs =>
    if c = '"' then some (String.mk acc.reverse, cs)
    else if c = '\\' then
      match cs with
      | [] => none
      | e :: cs2 =>
        if e = '"' then parseStrBody fuel ('"' :: acc) cs2
        else if e = '\\' then parseStrBody fuel ('\\' :: acc) cs2
        else if e = '/' then parseStrBody fuel ('/' :: acc) cs2
        else if e = 'b' then parseStrBody fuel ('\x08' :: acc) cs2
        else if e = 'f' then parseStrBody fuel ('\x0c' :: acc) cs2
        else if e = 'n' then parseStrBody fuel ('\n' :: acc) cs2
        else if e = 'r' then parseStrBody fuel ('\r' :: acc) cs2
        else if e = 't' then parseStrBody fuel ('\t' :: acc) cs2
        else if e = 'u' then
          match cs2 with
          | h1 :: h2 :: h3 :: h4 :: cs3 =>
            match hexVal h1, hexVal h2, hexVal h3, hexVal h4 with
            | some a, some b, some c2, some d =>
              parseStrBody fuel (Char.ofNat (((a * 16 + b) * 16 + c2) * 16 + d) :: acc) cs3
            | _, _, _, _ => none
          | _ => none
        else none
    else if c.toNat < 32 then none
    else parseStrBody fuel (c :: acc) cs

/-- Parse the optional fraction part of a JSON number. -/
def parseFracPart (acc cs : List Char) : Option (List Char × List Char) :=
  match cs with
  | '.' :: r =>
    let ds := r.takeWhile Char.isDigit
    let r2 := r.dropWhile Char.isDigit
    if ds = [] then none else some (acc ++ '.' :: ds, r2)
  | _ => some (acc, cs)

/-- Parse the optional exponent part of a JSON number. -/
def parseExpPart (acc cs : List Char) : Option (List Char × List Char) :=
  match cs with
  | e :: r =>
    if e = 'e' ∨ e = 'E' then
      let sgnAndRest : List Char × List Char :=
        match r with
        | '+' :: rr => (['+'], rr)
        | '-' :: rr => (['-'], rr)
        | _ => ([], r)
      let ds := sgnAndRest.2.takeWhile Char.isDigit
      let r2 := sgnAndRest.2.dropWhile Char.isDigit
      if ds = [] then none else some (acc ++ e :: sgnAndRest.1 ++ ds, r2)
    else some (acc, cs)
  | [] => some (acc, [])

/-- Parse a JSON number at the head of `cs`; returns its lexeme and the rest. -/
def parseNumber (cs : List Char) : Option (String × List Char) :=
  let negAndRest : List Char × List Char :=
    match cs with
    | '-' :: r => (['-'], r)
    | _ => ([], cs)
  match negAndRest.2 with
  | [] => none
  | c :: r =>
    let intAndRest : Option (List Char × List Char) :=
      if c = '0' then some (negAndRest.1 ++ ['0'], r)
      else if c.isDigit then
        some (negAndRest.1 ++ negAndRest.2.takeWhile Char.isDigit,
          negAndRest.2.dropWhile Char.isDigit)
      else none
    match intAndRest with
    | none => none
    | some (acc1, r1) =>
      match parseFracPart acc1 r1 with
      | none => none
      | some (acc2, r2) =>
        match parseExpPart acc2 r2 with
        | none => none
        | some (acc3, r3) => some (String.mk acc3, r3)

/-- Python-dict insertion: replace the value of an existing key in place,
else append the binding (duplicate JSON object keys: last value wins). -/
def objUpsert : List (String × Json) → String → Json → List (String × Json)
  | [], k, v => [(k, v)]
  | (k0, v0) :: rest, k, v =>
    if k0 = k then (k0, v) :: rest else (k0, v0) :: objUpsert rest k v

/-- Parser task: a value, the element loop of an array, or the member loop
of an object (with the elements/members parsed so far). -/
inductive PTask where
  | val
  | arrElems (acc : List Json)
  | objMembers (acc : List (String × Json))

/-- The recursive-descent JSON parser (fuel-indexed to stay structural). -/
def parseP : Nat → PTask → List Char → Option (Json × List Char)
  | 0, _, _ => none
  | fuel + 1, .val, cs0 =>
    match skipWs cs0 with
    | [] => none
    | c :: cs =>
      if c = '{' then
        match skipWs cs with
        | '}' :: r => some (.obj [], r)
        | cs2 => parseP fuel (.objMembers []) cs2
      else if c = '[' then
        match skipWs cs with
        | ']' :: r => some (.arr [], r)
        | cs2 => parseP fuel (.arrElems []) cs2
      else if c = '"' then
        match parseStrBody (cs.length + 1) [] cs with
        | some (s, r) => some (.str s, r)
        | none => none
      else if c = 't' then
        match cs with
        | 'r' :: 'u' :: 'e' :: r => some (.bool true, r)
        | _ => none
      else if c = 'f' then
        match cs with
        | 'a' :: 'l' :: 's' :: 'e' :: r => some (.bool false, r)
        | _ => none
      else if c = 'n' then
        match cs with
        | 'u' :: 'l' :: 'l' :: r => some (.null, r)
        | _ => none
      else
        match parseNumber (c :: cs) with
        | some (lx, r) => some (.num lx, r)
        | none => none
  | fuel + 1, .arrElems acc, cs =>
    match parseP fuel .val cs with
    | none => none
    | some (v, rest) =>
      match skipWs rest with
      | ',' :: r2 => parseP fuel (.arrElems (v :: acc)) r2
      | ']' :: r2 => some (.arr (v :: acc).reverse, r2)
      | _ => none
  | fuel + 1, .objMembers acc, cs =>
    match skipWs cs with
    | '"' :: r =>
      match parseStrBody (r.length + 1) [] r with
      | none => none
      | some (key, r2) =>
        match skipWs r2 with
        | ':' :: r3 =>
          match parseP fuel .val r3 with
          | none => none
          | some (v, r4) =>
            match skipWs r4 with
            | ',' :: r5 => parseP fuel (.objMembers (objUpsert acc key v)) r5
            | '}' :: r5 => some (.obj (objUpsert acc key v), r5)
            | _ => none
        | _ => none
    | _ => none

/-- Embeds `json.loads(s)`: parse one JSON value, allowing surrounding whitespace
only; anything else is a parse error (`None` here models the raised
`JSONDecodeError`). -/
def jsonParse (s : String) : Option Json :=
  match parseP (2 * s.data.length + 8) .val s.data with
  | some (v, rest) => if skipWs rest = [] then some v else none
  | none => none

theorem jsonParse_test_array :
    jsonParse " [1, \"a\", \x7b\"k\": true\x7d] "
      = some (Json.arr [Json.num "1", Json.str "a", Json.obj [("k", Json.bool true)]]) := rfl

theorem jsonParse_test_bad : jsonParse "[1," = none := rfl

/-! ## Structured-output repair pipeline (`storyboard.py`) -/

/-- The backtick character (used by Markdown code fences). -/
def btick : Char := Char.ofNat 96

/-- Find the first triple-backtick closing fence, returning the characters
before it (the regex's lazy group up to the first possible close). -/
def splitAtClose : List Char → Option (List Char)
  | c1 :: c2 :: c3 :: rest =>
    if c1 = btick ∧ c2 = btick ∧ c3 = btick then some []
    else
      match splitAtClose (c2 :: c3 :: rest) with
      | some body => some (c1 :: body)
      | none => none
  | _ => none

/-- Skip an optional `json` tag (case-insensitive) right after an opening
fence, as `(?:json)?` does. -/
def skipJsonTag : List Char → List Char
  | c1 :: c2 :: c3 :: c4 :: rest =>
    if c1.toLower = 'j' ∧ c2.toLower = 's' ∧ c3.toLower = 'o' ∧ c4.toLower = 'n' then rest
    else c1 :: c2 :: c3 :: c4 :: rest
  | cs => cs

/-- Search for the first full code-fence match of
`(three backticks)(json)?\s*(lazy body)\s*(three backticks)`; returns the raw
body group (whitespace trimming is applied by the caller, mirroring
`m.group(1).strip()`). -/
def findFence : List Char → Option (List Char)
  | c1 :: c2 :: c3 :: rest =>
    if c1 = btick ∧ c2 = btick ∧ c3 = btick then
      match splitAtClose (skipJsonTag rest) with
      | some body => some body
      | none => findFence (c2 :: c3 :: rest)
    else findFence (c2 :: c3 :: rest)
  | _ => none

/-- Embeds `_strip_code_fences(s)`: the stripped fence body when a fence matches,
otherwise the stripped input. -/
def strip_code_fences (s : String) : String :=
  match findFence s.data with
  | some body => pyStrip (String.mk body)
  | none => pyStrip s

/-- Normalize typographic quotes to plain ones (the four single-character
`str.replace` calls of `_json_sanitize_minimal`). -/
def replQuoteChar (c : Char) : Char :=
  if c = '“' ∨ c = '”' then '"'
  else if c = '‘' ∨ c = '’' then Char.ofNat 39
  else c

/-- Split leading regex `\s*` followed by a closing bracket/brace. -/
def wsCloseSplit : List Char → Option (List Char × Char × List Char)
  | [] => none
  | c :: cs =>
    if c = ']' ∨ c = '}' then some ([], c, cs)
    else if isPySpace c then
      match wsCloseSplit cs with
      | some (ws, cl, r) => some (c :: ws, cl, r)
      | none => none
    else none

/-- Embeds `re.sub(r",(\s*[\]\}])", r"\1", s)`: drop every comma that is followed
by optional whitespace and a closing bracket/brace. -/
def rmTrailingCommas : Nat → List Char → List Char
  | 0, cs => cs
  | _ + 1, [] => []
  | fuel + 1, c :: cs =>
    if c = ',' then
      match wsCloseSplit cs with
      | some (ws, cl, rest) => ws ++ cl :: rmTrailingCommas fuel rest
      | none => c :: rmTrailingCommas fuel cs
    else c :: rmTrailingCommas fuel cs

/-- Embeds `_json_sanitize_minimal(s)`: strip code fences, normalize typographic
quotes, drop trailing commas before a closing bracket. -/
def json_sanitize_minimal (s : String) : String :=
  let s1 := strip_code_fences s
  let s2 := String.mk (s1.data.map replQuoteChar)
  String.mk (rmTrailingCommas (s2.data.length + 1) s2.data)

/-- Index of the first occurrence of `c` (Python `s.index`). -/
def firstIdxOf (c : Char) (cs : List Char) : Option Nat :=
  cs.findIdx? (fun x => x = c)

/-- Index of the last occurrence of `c` (Python `s.rfind`). -/
def lastIdxOf (c : Char) (cs : List Char) : Option Nat :=
  match cs.reverse.findIdx? (fun x => x = c) with
  | some i => some (cs.length - 1 - i)
  | none => none

/-- Embeds `_parse_json_list_strict(s)`: sanitize, direct-parse expecting a list
(a successfully parsed non-list yields `None` at once); on a parse error,
parse the outermost `[...]` slice, again expecting a list. -/
def parse_json_list_strict (s : String) : Option (List Json) :=
  if s = "" then none
  else
    let s1 := json_sanitize_minimal s
    match jsonParse s1 with
    | some (.arr xs) => some xs
    | some _ => none
    | none =>
      match firstIdxOf '[' s1.data, lastIdxOf ']' s1.data with
      | some li, some ri =>
        if li < ri then
          match jsonParse (String.mk ((s1.data.drop li).take (ri + 1 - li))) with
          | some (.arr xs) => some xs
          | _ => none
        else none
      | _, _ => none

/-- Embeds `_extract_top_level_json(s)`: strip, direct-parse any JSON value; on
failure try the outermost `[...]` slice, then the outermost `{...}` slice. -/
def extract_top_level_json (s : String) : Option Json :=
  if s = "" then none
  else
    let t := pyStrip s
    match jsonParse t with
    | some v => some v
    | none =>
      let tryPair := fun (l r : Char) =>
        match firstIdxOf l t.data, lastIdxOf r t.data with
        | some li, some ri =>
          if li < ri then jsonParse (String.mk ((t.data.drop li).take (ri + 1 - li)))
          else none
        | _, _ => none
      match tryPair '[' ']' with
      | some v => some v
      | none => tryPair '{' '}'

/-- The parse step of `generate_pictures`:
`obj = _parse_json_list_strict(text) or _extract_top_level_json(text or "")`
as a Python value (`none` = Python `None`).  A non-empty strict parse is
truthy and short-circuits; otherwise Python's `or` yields the extractor's
result. -/
def round1_parse (text : String) : Option Json :=
  match parse_json_list_strict text with
  | some (x :: xs) => some (.arr (x :: xs))
  | _ => extract_top_level_json text

/-- Embeds `generate_pictures` invokes `_model_repair_to_json_array` exactly when
`obj is None` after the two parse attempts. -/
def round1_repair_invoked (text : String) : Bool :=
  (round1_parse text).isNone

theorem sanitize_test_fence :
    json_sanitize_minimal " ```json\n[1, 2,]\n``` " = "[1, 2]" := rfl

/-- Claim C4 (amended): for an input that is already a valid JSON array and
is left unchanged by the minimal sanitization (no code fence, no typographic
quotes, no comma-before-bracket, no surrounding whitespace), the pipeline
returns exactly the direct `json.loads` value, it does so via the
strict-parse step alone, and the model-assisted repair call is not invoked. -/
theorem C4_valid_array_strict_parse (s : String) (xs : List Json)
    (hparse : jsonParse s = some (Json.arr xs))
    (hsan : json_sanitize_minimal s = s)
    (hstrip : pyStrip s = s) :
    parse_json_list_strict s = some xs ∧
    round1_parse s = some (Json.arr xs) ∧
    round1_repair_invoked s = false := by
  have hne : s ≠ "" := by
    intro h
    rw [h] at hparse
    rw [show jsonParse "" = none from rfl] at hparse
    exact Option.noConfusion hparse
  have hstrict : parse_json_list_strict s = some xs := by
    unfold parse_json_list_strict
    rw [if_neg hne, hsan]
    simp only [hparse]
  have hmain : round1_parse s = some (Json.arr xs) := by
    unfold round1_parse
    rw [hstrict]
    cases xs with
    | cons x xs2 => rfl
    | nil =>
      show extract_top_level_json s = some (Json.arr [])
      unfold extract_top_level_json
      rw [if_neg hne, hstrip]
      simp only [hparse]
  exact ⟨hstrict, hmain, by unfold round1_repair_invoked; rw [hmain]; rfl⟩

theorem C4_valid_array_strict_parse_witness :
    parse_json_list_strict "[1, 2]" = some [Json.num "1", Json.num "2"] ∧
    round1_parse "[1, 2]" = some (Json.arr [Json.num "1", Json.num "2"]) ∧
    round1_repair_invoked "[1, 2]" = false :=
  C4_valid_array_strict_parse "[1, 2]" [Json.num "1", Json.num "2"] rfl rfl rfl

/-- Counterexample to claim C4 as stated: the string `["x“,”y"]` is a valid
JSON array holding the single string `x“,”y`, but the pipeline's strict step
sanitizes the typographic quotes first and returns the two-element array
`["x", "y"]` — a value different from the direct JSON parse (the repair call
is still not invoked). -/
theorem C4_counterexample :
    jsonParse "[\"x“,”y\"]" = some (Json.arr [Json.str "x“,”y"]) ∧
    parse_json_list_strict "[\"x“,”y\"]" = some [Json.str "x", Json.str "y"] ∧
    round1_parse "[\"x“,”y\"]" = some (Json.arr [Json.str "x", Json.str "y"]) ∧
    round1_repair_invoked "[\"x“,”y\"]" = false ∧
    Json.arr [Json.str "x", Json.str "y"] ≠ Json.arr [Json.str "x“,”y"] := by
  refine ⟨rfl, rfl, rfl, rfl, ?_⟩
  simp

/-! ## Python value helpers for `storyboard.py`

Keyframes and shots are Python dicts obtained from `json.loads`; they are
embedded as association lists `PyDict`.  `str()` of a list/dict value is
abstracted by a constant marker (no property below depends on it), and a
number's `str()` is its JSON lexeme. -/

abbrev PyDict := List (String × Json)

/-- All mantissa digits of a number lexeme are zero (its value is 0). -/
def jsonNumIsZero (lex : String) : Bool :=
  ((lex.data.takeWhile (fun c => c ≠ 'e' ∧ c ≠ 'E')).filter Char.isDigit).all (fun c => c = '0')

/-- Python truthiness of a JSON-derived value. -/
def pyTruthy : Json → Bool
  | .null => false
  | .bool b => b
  | .num lex => !(jsonNumIsZero lex)
  | .str s => s ≠ ""
  | .arr xs => !xs.isEmpty
  | .obj kvs => !kvs.isEmpty

/-- Python `str()` of a JSON-derived value. -/
def pyStr : Json → String
  | .null => "None"
  | .bool true => "True"
  | .bool false => "False"
  | .num lex => lex
  | .str s => s
  | .arr _ => "<list>"
  | .obj _ => "<dict>"

/-- Value of a decimal digit string. -/
def parseIntDigits (ds : List Char) : Nat :=
  ds.foldl (fun a c => a * 10 + (c.toNat - 48)) 0

/-- Embeds `int()` of a JSON number lexeme (truncation toward zero). -/
def numLexToInt (lex : String) : Int :=
  let cs := lex.data
  let negAndRest : Bool × List Char :=
    match cs with
    | '-' :: r => (true, r)
    | _ => (false, cs)
  let ipart := negAndRest.2.takeWhile Char.isDigit
  let rest := negAndRest.2.dropWhile Char.isDigit
  let fracAndRest : List Char × List Char :=
    match rest with
    | '.' :: r => (r.takeWhile Char.isDigit, r.dropWhile Char.isDigit)
    | _ => ([], rest)
  let ev : Int :=
    match fracAndRest.2 with
    | 'e' :: r | 'E' :: r =>
      match r with
      | '-' :: d => -(parseIntDigits (d.takeWhile Char.isDigit) : Int)
      | '+' :: d => (parseIntDigits (d.takeWhile Char.isDigit) : Int)
      | d => (parseIntDigits (d.takeWhile Char.isDigit) : Int)
    | _ => 0
  let mant : Nat := parseIntDigits (ipart ++ fracAndRest.1)
  let scale : Int := ev - fracAndRest.1.length
  let mag : Nat := if 0 ≤ scale then mant * 10 ^ scale.toNat else mant / 10 ^ (-scale).toNat
  if negAndRest.1 then -(mag : Int) else (mag : Int)

/-- Python `int(x)` on a JSON-derived value: numbers truncate, booleans map
to 0/1, strings must be (whitespace-padded, optionally signed) digit runs;
everything else raises (`none`). -/
def pyToInt : Json → Option Int
  | .bool b => some (if b then 1 else 0)
  | .num lex => some (numLexToInt lex)
  | .str s =>
    let t := pyStripList s.data
    match t with
    | '-' :: ds =>
      if ds ≠ [] ∧ ds.all Char.isDigit then some (-(parseIntDigits ds : Int)) else none
    | '+' :: ds =>
      if ds ≠ [] ∧ ds.all Char.isDigit then some ((parseIntDigits ds : Int)) else none
    | ds =>
      if ds ≠ [] ∧ ds.all Char.isDigit then some ((parseIntDigits ds : Int)) else none
  | _ => none

/-- Python `dict.get(k)`. -/
def objGet : PyDict → String → Option Json
  | [], _ => none
  | (k0, v0) :: rest, k => if k0 = k then some v0 else objGet rest k

/-- Python `base | upd` (merge; `upd` wins on key clashes). -/
def objMerge (base upd : PyDict) : PyDict :=
  upd.foldl (fun acc kv => objUpsert acc kv.1 kv.2) base

/-- The `defaults` dict of `_normalize_keyframe`, verbatim. -/
def kfDefaults : PyDict :=
  [ ("frame_idx", .num "1"), ("frame", .str ""), ("style", .str "写实电影感, 8K画质"),
    ("isMaincharacter", .num "0"), ("charactId", .str ""), ("isMainScene", .num "0"),
    ("sceneId", .str ""), ("text", .str ""), ("sfx", .arr []), ("prompt", .str ""),
    ("nprompt", .str "blurry, low quality, worst quality, jpeg artifacts, signature, watermark"),
    ("promptv", .str ""), ("seed", .num "19930711") ]

/-- Embeds `_normalize_keyframe(kf)`: fill defaults, coerce `frame_idx` to an int
(falsy or uncoercible values become 1). -/
def normalize_keyframe (kf : PyDict) : PyDict :=
  let out := objMerge kfDefaults kf
  let fiRaw := (objGet out "frame_idx").getD .null
  let fiOr := if pyTruthy fiRaw then fiRaw else .num "1"
  objUpsert out "frame_idx" (.num (toString ((pyToInt fiOr).getD 1)))

/-- Embeds `_placeholder_from_shot(shot)`, verbatim field by field. -/
def placeholder_from_shot (shot : PyDict) : PyDict :=
  let sid := pyStr ((objGet shot "shot_id").getD (.str "SXXX"))
  normalize_keyframe
    [ ("shot_id", .str sid), ("frame_idx", .num "1"),
      ("frame", .str "【占位】关键帧生成失败，待补充。"),
      ("prompt", .str "placeholder frame; do not use for final rendering"),
      ("promptv", (objGet shot "promptv").getD ((objGet shot "action").getD (.str ""))),
      ("seed", (objGet shot "seed").getD (.num "19930711")) ]

/-- Python `f"S{n:03d}"` padding. -/
def fmt3 (n : Nat) : String :=
  if n < 10 then "00" ++ toString n
  else if n < 100 then "0" ++ toString n
  else toString n

/-- Embeds `_shot_order_map(pictures_json)`: first-occurrence rank of each shot id
(string form), with synthetic names for falsy ids. -/
def shot_order_map (pics : List PyDict) : List (String × Nat) :=
  (pics.foldl (fun (acc : List (String × Nat) × Nat) shot =>
    let raw := (objGet shot "shot_id").getD .null
    let sid := if pyTruthy raw then pyStr raw else "S" ++ fmt3 (acc.2 + 1)
    let m := acc.1
    (if m.any (fun p => p.1 = sid) then m else m ++ [(sid, m.length)], acc.2 + 1))
    ([], 0)).1

/-- Embeds `order_map.get(sid)`. -/
def orderLookup (om : List (String × Nat)) (sid : String) : Option Nat :=
  (om.find? (fun p => p.1 = sid)).map (fun p => p.2)

/-- Embeds `_sort_key_for(order_map, kf)`: `(rank or 10^9, int(frame_idx or 1))`.
(`int()` raising is unreachable on normalized entries and modelled as 1.) -/
def sort_key_for (om : List (String × Nat)) (kf : PyDict) : Int × Int :=
  let sid := pyStr ((objGet kf "shot_id").getD .null)
  let fiRaw := (objGet kf "frame_idx").getD .null
  let fiOr := if pyTruthy fiRaw then fiRaw else .num "1"
  (((orderLookup om sid).getD (10 ^ 9) : Int), (pyToInt fiOr).getD 1)

/-- Lexicographic comparison of sort keys (Python tuple `<=`). -/
def keyLE (a b : Int × Int) : Bool :=
  if a.1 < b.1 then true
  else if a.1 = b.1 then decide (a.2 ≤ b.2)
  else false

/-- The sort relation `_sort_all` sorts by. -/
def kfLE (om : List (String × Nat)) (a b : PyDict) : Prop :=
  keyLE (sort_key_for om a) (sort_key_for om b) = true

instance (om : List (String × Nat)) : DecidableRel (kfLE om) := by
  intro a b; unfold kfLE; infer_instance

theorem keyLE_iff (a b : Int × Int) :
    keyLE a b = true ↔ (a.1 < b.1 ∨ (a.1 = b.1 ∧ a.2 ≤ b.2)) := by
  unfold keyLE
  split_ifs with h1 h2
  · simp [h1]
  · simp [h1, h2]
  · simp [h1, h2]

instance (om : List (String × Nat)) : IsTotal PyDict (kfLE om) := by
  constructor
  intro a b
  unfold kfLE
  rw [keyLE_iff, keyLE_iff]
  omega

instance (om : List (String × Nat)) : IsTrans PyDict (kfLE om) := by
  constructor
  intro a b c hab hbc
  unfold kfLE at hab hbc ⊢
  rw [keyLE_iff] at hab hbc ⊢
  omega

/-- Embeds `_sort_all()` / `all_keyframes.sort(key=...)`: a stable sort by the key;
modelled by stable insertion sort (extensionally equal to Python's stable
sort for this total transitive relation). -/
def sortKF (om : List (String × Nat)) (kfs : List PyDict) : List PyDict :=
  List.insertionSort (kfLE om) kfs

/-- Embeds `_chunk_list(items, n)` (auxiliary, fuel = length). -/
def chunkAux (n : Nat) : Nat → List α → List (List α)
  | 0, _ => []
  | _ + 1, [] => []
  | fuel + 1, x :: xs => (x :: xs).take n :: chunkAux n fuel ((x :: xs).drop n)

/-- Embeds `_chunk_list(items, n)`. -/
def chunk_list (items : List α) (n : Nat) : List (List α) :=
  chunkAux n items.length items

/-! ## Batch escalation and coverage reconciliation
(`storyboard.py`, `generate_keyframe_prompts_batched`)

The per-batch model call chain inside `_run_one_batch` (stream preference,
model fallback, continuation) is the machinery already embedded above; for
the batch pipeline it is abstracted by an oracle giving, for every tier and
batch index (and for every missing-shot retry round), the raw text the call
chain produced and the raw text a model-assisted repair call would return.
Raw-chunk accumulation and used-model bookkeeping are omitted (no property
below observes them). -/

/-- Python value of `_parse_json_list_strict(raw) or _extract_top_level_json(raw) or []`. -/
def batch_parse_value (raw : String) : Json :=
  match parse_json_list_strict raw with
  | some (x :: xs) => .arr (x :: xs)
  | _ =>
    match extract_top_level_json raw with
    | some v => if pyTruthy v then v else .arr []
    | none => .arr []

/-- The parse-and-normalize tail of `_run_one_batch`: parsed entries (dicts
with a truthy shot id, normalized) and whether "JSON parse failed" was
logged. -/
def run_one_batch_parsed (raw repairRaw : String) : List PyDict × Bool :=
  let parsed0 := batch_parse_value raw
  let listAndFail : List Json × Bool :=
    match parsed0 with
    | .arr xs => (xs, false)
    | _ =>
      match parse_json_list_strict repairRaw with
      | some xs => (xs, false)
      | none => ([], true)
  (listAndFail.1.filterMap (fun x =>
      match x with
      | .obj o =>
        if pyTruthy ((objGet o "shot_id").getD .null) then some (normalize_keyframe o)
        else none
      | _ => none),
    listAndFail.2)

/-- Membership of a raw Python value in the `covered()` set of strings
(only a string can equal a string). -/
def jsonInStrs (v : Json) (l : List String) : Bool :=
  match v with
  | .str s => l.contains s
  | _ => false

/-- Embeds `covered()`: the string ids of all keyframes with a truthy shot id. -/
def coveredStrs (kfs : List PyDict) : List String :=
  kfs.filterMap (fun k =>
    let v := (objGet k "shot_id").getD .null
    if pyTruthy v then some (pyStr v) else none)

/-- Embeds `missing = [sid for sid in shot_ids_input if sid not in covered()]`. -/
def missingOf (ids : List Json) (kfs : List PyDict) : List Json :=
  ids.filter (fun sid => !(jsonInStrs sid (coveredStrs kfs)))

/-- The backend behaviour of one batched run: raw text (and model-repair
text) per tier and batch index, per retry round, plus the `as_completed`
arrival order of the parallel tiers. -/
structure R2Oracle where
  tierRaw : Nat → Nat → String
  tierRepair : Nat → Nat → String
  retryRaw : Nat → String
  retryRepair : Nat → String
  arrival : Nat → List Nat → List Nat

/-- Mutable state of the batched run: merged keyframes and the failure log. -/
structure R2State where
  kfs : List PyDict
  fails : List String

/-- Python `str([i+1 for i in l])`. -/
def pyNatListRepr (l : List Nat) : String :=
  "[" ++ String.intercalate ", " (l.map (fun i => toString (i + 1))) ++ "]"

/-- Python `repr` of a shot-id value inside a printed list. -/
def pyRepr : Json → String
  | .str s => "'" ++ s ++ "'"
  | v => pyStr v

/-- Python `str(missing)` for the placeholder failure line. -/
def pyJsonListRepr (l : List Json) : String :=
  "[" ++ String.intercalate ", " (l.map pyRepr) ++ "]"

/-- Embeds `_run_batches(mode, batch_indices, workers)`: run the given batches —
in `as_completed` order when parallel, in index order when serial — merge
parsed entries, log parse failures, collect indices that parsed to nothing,
and finally `_sort_all()`. -/
def run_batches (o : R2Oracle) (om : List (String × Nat)) (tier : Nat) (par : Bool)
    (idxs : List Nat) (st : R2State) : R2State × List Nat :=
  let ordered := if par then o.arrival tier idxs else idxs
  let stepped := ordered.foldl (fun (acc : R2State × List Nat) bi =>
    let pf := run_one_batch_parsed (o.tierRaw tier bi) (o.tierRepair tier bi)
    let fails1 :=
      if pf.2 then acc.1.fails ++ ["batch#" ++ toString (bi + 1) ++ ": JSON parse failed"]
      else acc.1.fails
    (⟨acc.1.kfs ++ pf.1, fails1⟩,
      if pf.1.isEmpty then acc.2 ++ [bi] else acc.2)) (st, [])
  (⟨sortKF om stepped.1.kfs, stepped.1.fails⟩, stepped.2)

/-- The missing-shot regeneration loop (up to `max_missing_retry_rounds`
rounds); returns the final state and the number of rounds executed. -/
def retryLoop (o : R2Oracle) (om : List (String × Nat)) (ids : List Json) :
    Nat → Nat → R2State → R2State × Nat
  | 0, round, st => (st, round)
  | fuel + 1, round, st =>
    if (missingOf ids st.kfs).isEmpty then (st, round)
    else
      let pf := run_one_batch_parsed (o.retryRaw (round + 1)) (o.retryRepair (round + 1))
      let fails1 :=
        if pf.2 then st.fails ++ ["retry#" ++ toString (round + 1) ++ ": JSON parse failed"]
        else st.fails
      retryLoop o om ids fuel (round + 1) ⟨sortKF om (st.kfs ++ pf.1), fails1⟩

/-- Embeds `all_shots`: input shots with a truthy shot id. -/
def r2AllShots (pics : List PyDict) : List PyDict :=
  pics.filter (fun s => pyTruthy ((objGet s "shot_id").getD .null))

/-- Embeds `shot_ids_input`: the raw shot-id values of `all_shots`, in order. -/
def r2InputIds (pics : List PyDict) : List Json :=
  (r2AllShots pics).map (fun s => (objGet s "shot_id").getD .null)

/-- Embeds `next((s for s in all_shots if s["shot_id"] == sid), {"shot_id": sid})`. -/
def findShot (allShots : List PyDict) (sid : Json) : PyDict :=
  match allShots.find? (fun s => Json.beq ((objGet s "shot_id").getD .null) sid) with
  | some s => s
  | none => [("shot_id", sid)]

/-- Dict insertion for `missing_detail` (keyed by the raw shot-id value). -/
def detailUpsert : List (Json × String) → Json → String → List (Json × String)
  | [], k, v => [(k, v)]
  | (k0, v0) :: rest, k, v =>
    if Json.beq k0 k then (k0, v) :: rest else (k0, v0) :: detailUpsert rest k v

/-- One escalation step: re-run only the batches that failed at the previous
tier; skip entirely when nothing failed. -/
def tierStep (o : R2Oracle) (om : List (String × Nat)) (tier : Nat) (par : Bool)
    (s : R2State × List Nat) : R2State × List Nat :=
  if s.2.isEmpty then s else run_batches o om tier par s.2 s.1

/-- The four-tier strategy chain S1-S4 of `generate_keyframe_prompts_batched`
(plus the `hard_failed_batches` log line). -/
def r2AfterTiers (o : R2Oracle) (pics : List PyDict) (batch_size parallel_workers : Nat) :
    R2State :=
  let om := shot_order_map pics
  let nb := (chunk_list pics (max 1 batch_size)).length
  let startWorkers := max 1 (if parallel_workers = 0 then 4 else parallel_workers)
  let s1 := run_batches o om 1 (decide (1 < startWorkers)) (List.range nb) ⟨[], []⟩
  let s4 := tierStep o om 4 false (tierStep o om 3 false (tierStep o om 2 true s1))
  if s4.2.isEmpty then s4.1
  else ⟨s4.1.kfs, s4.1.fails ++ ["hard_failed_batches=" ++ pyNatListRepr s4.2]⟩

/-- Result of a batched run, with the reconciliation pieces exposed:
`kfs` is the returned keyframe list, `kfsBeforePlaceholders` the merged list
after the retry loop but before placeholder synthesis, `placeholders` the
synthesized entries, `missing` the ids still missing after all retry rounds,
`missing_detail` the recorded reasons. -/
structure R2Result where
  kfs : List PyDict
  fails : List String
  retry_rounds : Nat
  missing : List Json
  missing_detail : List (Json × String)
  kfsBeforePlaceholders : List PyDict
  placeholders : List PyDict

/-- Embeds `generate_keyframe_prompts_batched(pictures_json, ...)`: tier chain,
coverage check with bounded regeneration, then placeholder synthesis and the
final stable sort. -/
def generate_keyframe_prompts_batched (o : R2Oracle) (pics : List PyDict)
    (batch_size max_missing_retry_rounds parallel_workers : Nat) : R2Result :=
  let om := shot_order_map pics
  let ids := r2InputIds pics
  let st4 := r2AfterTiers o pics batch_size parallel_workers
  let str := retryLoop o om ids max_missing_retry_rounds 0 st4
  let missing := missingOf ids str.1.kfs
  let detail := missing.foldl
    (fun acc sid => detailUpsert acc sid "not returned by model after 3 retry rounds") []
  let phs := missing.map (fun sid => placeholder_from_shot (findShot (r2AllShots pics) sid))
  let finalKfs := if missing.isEmpty then str.1.kfs else sortKF om (str.1.kfs ++ phs)
  let finalFails :=
    if missing.isEmpty then str.1.fails
    else str.1.fails ++ ["filled_placeholders_for_missing_shots: " ++ pyJsonListRepr missing]
  { kfs := finalKfs, fails := finalFails, retry_rounds := str.2, missing := missing,
    missing_detail := detail, kfsBeforePlaceholders := str.1.kfs, placeholders := phs }

/-! ## Ordering invariant (claim C5) -/

theorem run_batches_sorted (o : R2Oracle) (om : List (String × Nat)) (tier : Nat)
    (par : Bool) (idxs : List Nat) (st : R2State) :
    List.Sorted (kfLE om) (run_batches o om tier par idxs st).1.kfs :=
  List.sorted_insertionSort (kfLE om) _

theorem tierStep_sorted (o : R2Oracle) (om : List (String × Nat)) (tier : Nat)
    (par : Bool) (s : R2State × List Nat) (h : List.Sorted (kfLE om) s.1.kfs) :
    List.Sorted (kfLE om) (tierStep o om tier par s).1.kfs := by
  unfold tierStep
  split
  · exact h
  · exact run_batches_sorted o om tier par s.2 s.1

theorem r2AfterTiers_sorted (o : R2Oracle) (pics : List PyDict) (bs pw : Nat) :
    List.Sorted (kfLE (shot_order_map pics)) (r2AfterTiers o pics bs pw).kfs := by
  have hs : ∀ (b : Bool) (n : Nat), List.Sorted (kfLE (shot_order_map pics))
      ((tierStep o (shot_order_map pics) 4 false (tierStep o (shot_order_map pics) 3 false
        (tierStep o (shot_order_map pics) 2 true
          (run_batches o (shot_order_map pics) 1 b (List.range n) ⟨[], []⟩)))).1.kfs) :=
    fun b n => tierStep_sorted _ _ _ _ _ (tierStep_sorted _ _ _ _ _
      (tierStep_sorted _ _ _ _ _ (run_batches_sorted _ _ _ _ _ _)))
  simp only [r2AfterTiers]
  split_ifs <;> exact hs _ _

theorem retryLoop_sorted (o : R2Oracle) (om : List (String × Nat)) (ids : List Json) :
    ∀ (fuel round : Nat) (st : R2State), List.Sorted (kfLE om) st.kfs →
      List.Sorted (kfLE om) (retryLoop o om ids fuel round st).1.kfs
  | 0, _, _, h => h
  | fuel + 1, round, st, h => by
    unfold retryLoop
    split
    · exact h
    · exact retryLoop_sorted o om ids fuel (round + 1) _
        (List.sorted_insertionSort (kfLE om) _)

/-- Claim C5: the merged keyframe list returned by
`generate_keyframe_prompts_batched` is always sorted by
(original work-item order, frame sub-index) — whatever the oracle (i.e.
whichever tier, parallel completion order, or retry round produced each
entry). -/
theorem C5_ordering_invariant (o : R2Oracle) (pics : List PyDict) (bs mr pw : Nat) :
    List.Sorted (kfLE (shot_order_map pics))
      (generate_keyframe_prompts_batched o pics bs mr pw).kfs := by
  simp only [generate_keyframe_prompts_batched]
  split_ifs with h
  · exact retryLoop_sorted o _ _ mr 0 _ (r2AfterTiers_sorted o pics bs pw)
  · exact List.sorted_insertionSort _ _

/-! ## Coverage invariant (claim C1) -/

theorem Json.beq_str_right {v : Json} {x : String} (h : Json.beq v (Json.str x) = true) :
    v = Json.str x := by
  cases v <;> simp_all [Json.beq]

/-- Every raw input shot id is truthy (the shots are filtered on that). -/
theorem r2InputIds_truthy (pics : List PyDict) :
    ∀ v ∈ r2InputIds pics, pyTruthy v = true := by
  intro v hv
  unfold r2InputIds r2AllShots at hv
  rcases List.mem_map.mp hv with ⟨shot, hmem, rfl⟩
  exact (List.mem_filter.mp hmem).2

/-- The placeholder synthesized for a missing string id carries exactly that
id (found shot or synthetic fallback alike). -/
theorem placeholder_sid (A : List PyDict) (x : String) :
    objGet (placeholder_from_shot (findShot A (Json.str x))) "shot_id"
      = some (Json.str x) := by
  have hgen : ∀ shot : PyDict, objGet (placeholder_from_shot shot) "shot_id"
      = some (Json.str (pyStr ((objGet shot "shot_id").getD (Json.str "SXXX")))) :=
    fun _ => rfl
  unfold findShot
  cases hf : A.find? (fun s => Json.beq ((objGet s "shot_id").getD .null) (Json.str x)) with
  | none => rw [hgen]; rfl
  | some shot =>
    have hp := List.find?_some hf
    have hv : (objGet shot "shot_id").getD .null = Json.str x := Json.beq_str_right hp
    rw [hgen]
    cases ho : objGet shot "shot_id" with
    | none => rw [ho] at hv; simp at hv
    | some v =>
      rw [ho] at hv
      simp only [Option.getD_some] at hv
      simp [hv, pyStr]

/-- Whether a merged entry carries string id `s` (used for counting). -/
def phSidIs (s : String) (ph : PyDict) : Bool :=
  pyStr ((objGet ph "shot_id").getD .null) == s

theorem phSidIs_placeholder (A : List PyDict) (x s : String) :
    phSidIs s (placeholder_from_shot (findShot A (Json.str x))) = (x == s) := by
  unfold phSidIs
  rw [placeholder_sid A x]
  rfl

/-- Counting an element of a duplicate-free list under a side condition. -/
theorem countP_beq_nodup (s : String) (c : String → Bool) :
    ∀ (l : List String), l.Nodup →
      (l.countP (fun x => (x == s) && c x)) = if s ∈ l ∧ c s = true then 1 else 0
  | [], _ => by simp
  | a :: l, hnd => by
    have hna : a ∉ l := (List.nodup_cons.mp hnd).1
    have ih := countP_beq_nodup s c l (List.nodup_cons.mp hnd).2
    rw [List.countP_cons, ih]
    by_cases has : a = s
    · subst has
      simp only [List.mem_cons, true_or, true_and, beq_self_eq_true, Bool.true_and]
      have hsl : ¬(a ∈ l ∧ c a = true) := fun h => hna h.1
      rw [if_neg hsl]
      by_cases hca : c a = true
      · simp [hca]
      · simp [hca]
    · have hpa : ((a == s) && c a) = false := by
        simp [beq_eq_false_iff_ne.mpr has]
      rw [hpa]
      simp only [List.mem_cons]
      have : (s = a ∨ s ∈ l) ↔ s ∈ l := by
        constructor
        · rintro (rfl | h)
          · exact absurd rfl has
          · exact h
        · exact Or.inr
      simp [this]

theorem coveredStrs_append (a b : List PyDict) :
    coveredStrs (a ++ b) = coveredStrs a ++ coveredStrs b := by
  unfold coveredStrs
  exact List.filterMap_append a b _

theorem coveredStrs_sortKF (om : List (String × Nat)) (kfs : List PyDict) (s : String) :
    s ∈ coveredStrs (sortKF om kfs) ↔ s ∈ coveredStrs kfs := by
  unfold sortKF coveredStrs
  exact ((List.perm_insertionSort (kfLE om) kfs).filterMap _).mem_iff

/-- Membership of a string id in the recomputed missing list. -/
theorem mem_missingOf_str (ids : List Json) (kfs : List PyDict) (s : String) :
    Json.str s ∈ missingOf ids kfs ↔ (Json.str s ∈ ids ∧ s ∉ coveredStrs kfs) := by
  unfold missingOf
  rw [List.mem_filter]
  have hjs : jsonInStrs (Json.str s) (coveredStrs kfs) = (coveredStrs kfs).contains s := rfl
  have hcon : (coveredStrs kfs).contains s = true ↔ s ∈ coveredStrs kfs := by
    rw [List.contains_eq_any_beq, List.any_eq_true]
    constructor
    · rintro ⟨x, hx, hbeq⟩
      rw [beq_iff_eq] at hbeq
      exact hbeq ▸ hx
    · intro hmem
      exact ⟨s, hmem, by simp⟩
  constructor
  · rintro ⟨hin, hb⟩
    rw [hjs] at hb
    refine ⟨hin, fun hmem => ?_⟩
    rw [Bool.not_eq_true'] at hb
    rw [hcon.mpr hmem] at hb
    cases hb
  · rintro ⟨hin, hmem⟩
    refine ⟨hin, ?_⟩
    rw [hjs, Bool.not_eq_true']
    cases hck : (coveredStrs kfs).contains s
    · rfl
    · exact absurd (hcon.mp hck) hmem

theorem strContains_iff (l : List String) (s : String) :
    l.contains s = true ↔ s ∈ l := by
  rw [List.contains_eq_any_beq, List.any_eq_true]
  constructor
  · rintro ⟨x, hx, hbeq⟩
    rw [beq_iff_eq] at hbeq
    exact hbeq ▸ hx
  · intro hmem
    exact ⟨s, hmem, by simp⟩

theorem coveredStrs_mem_of (kfs : List PyDict) (ph : PyDict) (s : String)
    (hph : ph ∈ kfs) (hsid : objGet ph "shot_id" = some (Json.str s)) (hne : s ≠ "") :
    s ∈ coveredStrs kfs := by
  unfold coveredStrs
  apply List.mem_filterMap.mpr
  refine ⟨ph, hph, ?_⟩
  simp [hsid, pyTruthy, pyStr, hne]

/-- Claim C1 (amended): for inputs whose shots carry distinct string shot
ids, after reconciliation every expected id is covered in the returned list;
an id is in the missing list exactly when the model never produced a real
entry for it; and the synthesized placeholder for an id exists exactly once
when (and only when) the id has no real entry — never zero times and never
both a real entry and a placeholder. -/
theorem C1_coverage_invariant (o : R2Oracle) (pics : List PyDict)
    (bs mr pw : Nat) (strIds : List String)
    (hid : r2InputIds pics = strIds.map Json.str)
    (hnd : strIds.Nodup) :
    ∀ s ∈ strIds,
      s ∈ coveredStrs (generate_keyframe_prompts_batched o pics bs mr pw).kfs ∧
      (Json.str s ∈ (generate_keyframe_prompts_batched o pics bs mr pw).missing ↔
        s ∉ coveredStrs (generate_keyframe_prompts_batched o pics bs mr pw).kfsBeforePlaceholders) ∧
      (s ∉ coveredStrs (generate_keyframe_prompts_batched o pics bs mr pw).kfsBeforePlaceholders →
        ((generate_keyframe_prompts_batched o pics bs mr pw).placeholders.countP (phSidIs s)) = 1) ∧
      (s ∈ coveredStrs (generate_keyframe_prompts_batched o pics bs mr pw).kfsBeforePlaceholders →
        ((generate_keyframe_prompts_batched o pics bs mr pw).placeholders.countP (phSidIs s)) = 0) := by
  intro s hs
  have hmemid : Json.str s ∈ r2InputIds pics := by
    rw [hid]
    exact List.mem_map_of_mem _ hs
  have htr : pyTruthy (Json.str s) = true := r2InputIds_truthy pics _ hmemid
  have hne : s ≠ "" := by
    intro h
    rw [h] at htr
    exact absurd htr (by decide)
  have hB : (generate_keyframe_prompts_batched o pics bs mr pw).kfsBeforePlaceholders
      = (retryLoop o (shot_order_map pics) (r2InputIds pics) mr 0
          (r2AfterTiers o pics bs pw)).1.kfs := rfl
  set K := (retryLoop o (shot_order_map pics) (r2InputIds pics) mr 0
    (r2AfterTiers o pics bs pw)).1.kfs with hK
  have hM : (generate_keyframe_prompts_batched o pics bs mr pw).missing
      = missingOf (r2InputIds pics) K := rfl
  have hP : (generate_keyframe_prompts_batched o pics bs mr pw).placeholders
      = (missingOf (r2InputIds pics) K).map
          (fun sid => placeholder_from_shot (findShot (r2AllShots pics) sid)) := rfl
  have hKfs : (generate_keyframe_prompts_batched o pics bs mr pw).kfs
      = (if (missingOf (r2InputIds pics) K).isEmpty then K
         else sortKF (shot_order_map pics) (K ++ (missingOf (r2InputIds pics) K).map
           (fun sid => placeholder_from_shot (findShot (r2AllShots pics) sid)))) := rfl
  rw [hB, hM, hP, hKfs]
  have hmemMiss : Json.str s ∈ missingOf (r2InputIds pics) K ↔ s ∉ coveredStrs K := by
    rw [mem_missingOf_str]
    exact ⟨fun h => h.2, fun h => ⟨hmemid, h⟩⟩
  have hcount :
      (((missingOf (r2InputIds pics) K).map
          (fun sid => placeholder_from_shot (findShot (r2AllShots pics) sid))).countP (phSidIs s))
      = if s ∈ strIds ∧ (!(jsonInStrs (Json.str s) (coveredStrs K))) = true then 1 else 0 := by
    unfold missingOf
    rw [List.countP_map, hid, List.countP_filter, List.countP_map]
    refine Eq.trans (List.countP_congr fun x hx => ?_) (countP_beq_nodup s
      (fun x => !(jsonInStrs (Json.str x) (coveredStrs K))) strIds hnd)
    simp [Function.comp, phSidIs_placeholder]
  by_cases hc : s ∈ coveredStrs K
  · have hnm : (!(jsonInStrs (Json.str s) (coveredStrs K))) = false := by
      have hj : jsonInStrs (Json.str s) (coveredStrs K) = (coveredStrs K).contains s := rfl
      rw [hj, (strContains_iff _ _).mpr hc]
      rfl
    refine ⟨?_, hmemMiss, fun hn => absurd hc hn, fun _ => ?_⟩
    · split_ifs with hE
      · exact hc
      · rw [coveredStrs_sortKF, coveredStrs_append]
        exact List.mem_append_left _ hc
    · rw [hcount, if_neg]
      rintro ⟨-, hq⟩
      rw [hnm] at hq
      cases hq
  · have hmiss : Json.str s ∈ missingOf (r2InputIds pics) K := hmemMiss.mpr hc
    have hnm : (!(jsonInStrs (Json.str s) (coveredStrs K))) = true := by
      have hj : jsonInStrs (Json.str s) (coveredStrs K) = (coveredStrs K).contains s := rfl
      rw [hj]
      cases hck : (coveredStrs K).contains s
      · rfl
      · exact absurd ((strContains_iff _ _).mp hck) hc
    have hcnt1 : (((missingOf (r2InputIds pics) K).map
        (fun sid => placeholder_from_shot (findShot (r2AllShots pics) sid))).countP (phSidIs s))
        = 1 := by
      rw [hcount, if_pos ⟨hs, hnm⟩]
    refine ⟨?_, hmemMiss, fun _ => hcnt1, fun hcc => absurd hcc hc⟩
    have hEne : ((missingOf (r2InputIds pics) K).isEmpty) ≠ true := by
      intro hE
      rw [List.isEmpty_iff] at hE
      rw [hE] at hmiss
      cases hmiss
    rw [if_neg hEne]
    rw [coveredStrs_sortKF, coveredStrs_append]
    apply List.mem_append_right
    apply coveredStrs_mem_of _ (placeholder_from_shot (findShot (r2AllShots pics) (Json.str s))) s
    · exact List.mem_map_of_mem _ hmiss
    · exact placeholder_sid _ _
    · exact hne

/-- An oracle whose every response is empty (nothing parseable anywhere). -/
def oracleBlankR2 : R2Oracle :=
  { tierRaw := fun _ _ => "", tierRepair := fun _ _ => "",
    retryRaw := fun _ => "", retryRepair := fun _ => "", arrival := fun _ l => l }

/-- Counterexample to claim C1 as stated: with two input shots carrying the
SAME id "S1" and a backend returning nothing, the reconciler appends TWO
placeholder entries for "S1" (the missing list keeps one entry per input
occurrence), so "exactly one synthesized placeholder" fails. -/
theorem C1_counterexample :
    ((generate_keyframe_prompts_batched oracleBlankR2
      [[("shot_id", Json.str "S1")], [("shot_id", Json.str "S1")]] 15 3 4).placeholders.countP
        (phSidIs "S1")) = 2 ∧
    (generate_keyframe_prompts_batched oracleBlankR2
      [[("shot_id", Json.str "S1")], [("shot_id", Json.str "S1")]] 15 3 4).missing
      = [Json.str "S1", Json.str "S1"] :=
  ⟨rfl, rfl⟩

/-- Witness oracle for C1: tier 1 covers "S1" with a real entry, "S2" is
never produced. -/
def oracleC1W : R2Oracle :=
  { tierRaw := fun t bi =>
      if t = 1 ∧ bi = 0 then "[\x7b\"shot_id\": \"S1\", \"frame_idx\": 1\x7d]" else "",
    tierRepair := fun _ _ => "", retryRaw := fun _ => "", retryRepair := fun _ => "",
    arrival := fun _ l => l }

theorem C1_coverage_invariant_witness :
    "S2" ∈ coveredStrs (generate_keyframe_prompts_batched oracleC1W
      [[("shot_id", Json.str "S1")], [("shot_id", Json.str "S2")]] 15 3 4).kfs ∧
    Json.str "S2" ∈ (generate_keyframe_prompts_batched oracleC1W
      [[("shot_id", Json.str "S1")], [("shot_id", Json.str "S2")]] 15 3 4).missing ∧
    ((generate_keyframe_prompts_batched oracleC1W
      [[("shot_id", Json.str "S1")], [("shot_id", Json.str "S2")]] 15 3 4).placeholders.countP
        (phSidIs "S2")) = 1 ∧
    "S1" ∈ coveredStrs (generate_keyframe_prompts_batched oracleC1W
      [[("shot_id", Json.str "S1")], [("shot_id", Json.str "S2")]] 15 3 4).kfs ∧
    ((generate_keyframe_prompts_batched oracleC1W
      [[("shot_id", Json.str "S1")], [("shot_id", Json.str "S2")]] 15 3 4).placeholders.countP
        (phSidIs "S1")) = 0 := by
  have h2 := C1_coverage_invariant oracleC1W
    [[("shot_id", Json.str "S1")], [("shot_id", Json.str "S2")]] 15 3 4 ["S1", "S2"]
    rfl (by decide) "S2" (by decide)
  have h1 := C1_coverage_invariant oracleC1W
    [[("shot_id", Json.str "S1")], [("shot_id", Json.str "S2")]] 15 3 4 ["S1", "S2"]
    rfl (by decide) "S1" (by decide)
  exact ⟨h2.1, h2.2.1.mpr (by decide), h2.2.2.1 (by decide), h1.1, h1.2.2.2 (by decide)⟩

/-! ## Placeholder annotation (claim C9) -/

theorem detailUpsert_values_const (v : String) (k : Json) :
    ∀ acc : List (Json × String), (∀ p ∈ acc, p.2 = v) →
      ∀ p ∈ detailUpsert acc k v, p.2 = v
  | [], _, p, hp => by
    simp [detailUpsert] at hp
    rw [hp]
  | (k0, v0) :: rest, hacc, p, hp => by
    unfold detailUpsert at hp
    by_cases hb : Json.beq k0 k = true
    · rw [if_pos hb] at hp
      rcases List.mem_cons.mp hp with rfl | h
      · rfl
      · exact hacc p (List.mem_cons_of_mem _ h)
    · rw [if_neg hb] at hp
      rcases List.mem_cons.mp hp with rfl | h
      · exact hacc _ (List.mem_cons_self _ _)
      · exact detailUpsert_values_const v k rest
          (fun q hq => hacc q (List.mem_cons_of_mem _ hq)) p h

theorem detailFold_values_const (v : String) :
    ∀ (l : List Json) (acc : List (Json × String)), (∀ p ∈ acc, p.2 = v) →
      ∀ p ∈ l.foldl (fun a sid => detailUpsert a sid v) acc, p.2 = v
  | [], _, hacc => hacc
  | sid :: l, acc, hacc =>
    detailFold_values_const v l (detailUpsert acc sid v)
      (detailUpsert_values_const v sid acc hacc)

theorem detailUpsert_mem_str (s v : String) :
    ∀ acc : List (Json × String), ∃ p ∈ detailUpsert acc (Json.str s) v,
      p.1 = Json.str s ∧ p.2 = v
  | [] => ⟨(Json.str s, v), by simp [detailUpsert]⟩
  | (k0, v0) :: rest => by
    unfold detailUpsert
    by_cases hb : Json.beq k0 (Json.str s) = true
    · rw [if_pos hb]
      exact ⟨(k0, v), List.mem_cons_self _ _, Json.beq_str_right hb, rfl⟩
    · rw [if_neg hb]
      obtain ⟨p, hp, h1, h2⟩ := detailUpsert_mem_str s v rest
      exact ⟨p, List.mem_cons_of_mem _ hp, h1, h2⟩

theorem detailUpsert_preserve (s v : String) (k : Json) :
    ∀ acc : List (Json × String),
      (∃ p ∈ acc, p.1 = Json.str s ∧ p.2 = v) →
      ∃ p ∈ detailUpsert acc k v, p.1 = Json.str s ∧ p.2 = v
  | [], h => absurd h (by simp)
  | (k0, v0) :: rest, h => by
    unfold detailUpsert
    rcases h with ⟨p, hp, h1, h2⟩
    rcases List.mem_cons.mp hp with heq | hrest
    · subst heq
      by_cases hb : Json.beq k0 k = true
      · rw [if_pos hb]
        exact ⟨(k0, v), List.mem_cons_self _ _, h1, rfl⟩
      · rw [if_neg hb]
        exact ⟨(k0, v0), List.mem_cons_self _ _, h1, h2⟩
    · by_cases hb : Json.beq k0 k = true
      · rw [if_pos hb]
        exact ⟨p, List.mem_cons_of_mem _ hrest, h1, h2⟩
      · rw [if_neg hb]
        obtain ⟨q, hq, g1, g2⟩ := detailUpsert_preserve s v k rest ⟨p, hrest, h1, h2⟩
        exact ⟨q, List.mem_cons_of_mem _ hq, g1, g2⟩

theorem detailFold_preserve (s v : String) :
    ∀ (l : List Json) (acc : List (Json × String)),
      (∃ p ∈ acc, p.1 = Json.str s ∧ p.2 = v) →
      ∃ p ∈ l.foldl (fun a sid => detailUpsert a sid v) acc, p.1 = Json.str s ∧ p.2 = v
  | [], _, h => h
  | sid :: l, acc, h =>
    detailFold_preserve s v l (detailUpsert acc sid v) (detailUpsert_preserve s v sid acc h)

theorem detailFold_mem (s v : String) :
    ∀ (l : List Json) (acc : List (Json × String)), Json.str s ∈ l →
      ∃ p ∈ l.foldl (fun a sid => detailUpsert a sid v) acc, p.1 = Json.str s ∧ p.2 = v
  | [], _, h => absurd h (by simp)
  | sid :: l, acc, h => by
    rcases List.mem_cons.mp h with heq | hl
    · rw [← heq]
      exact detailFold_preserve s v l _ (detailUpsert_mem_str s v acc)
    · exact detailFold_mem s v l _ hl

/-- Claim C9 (amended): for every identifier still missing after the retry
loop, the recorded reason is the literal string
"not returned by model after 3 retry rounds" — the text names the default 3
whatever number of rounds was configured — and one placeholder entry is
appended per missing occurrence, carrying the original shot's carry-over
fields `seed` and `promptv` (with the source's documented fallbacks). -/
theorem C9_placeholder_annotation (o : R2Oracle) (pics : List PyDict) (bs mr pw : Nat) :
    (∀ p ∈ (generate_keyframe_prompts_batched o pics bs mr pw).missing_detail,
      p.2 = "not returned by model after 3 retry rounds") ∧
    ((generate_keyframe_prompts_batched o pics bs mr pw).placeholders
      = (generate_keyframe_prompts_batched o pics bs mr pw).missing.map
          (fun sid => placeholder_from_shot (findShot (r2AllShots pics) sid))) ∧
    (∀ s : String, Json.str s ∈ (generate_keyframe_prompts_batched o pics bs mr pw).missing →
      ∃ p ∈ (generate_keyframe_prompts_batched o pics bs mr pw).missing_detail,
        p.1 = Json.str s ∧ p.2 = "not returned by model after 3 retry rounds") ∧
    (∀ shot : PyDict,
      objGet (placeholder_from_shot shot) "promptv"
        = some ((objGet shot "promptv").getD ((objGet shot "action").getD (.str ""))) ∧
      objGet (placeholder_from_shot shot) "seed"
        = some ((objGet shot "seed").getD (.num "19930711"))) := by
  have hD : (generate_keyframe_prompts_batched o pics bs mr pw).missing_detail
      = (generate_keyframe_prompts_batched o pics bs mr pw).missing.foldl
          (fun acc sid => detailUpsert acc sid "not returned by model after 3 retry rounds")
          [] := rfl
  refine ⟨?_, rfl, ?_, fun _ => ⟨rfl, rfl⟩⟩
  · rw [hD]
    exact detailFold_values_const _ _ [] (by simp)
  · intro s hmem
    rw [hD]
    exact detailFold_mem s _ _ [] hmem

theorem C9_placeholder_annotation_witness :
    (∀ p ∈ (generate_keyframe_prompts_batched oracleBlankR2
        [[("shot_id", Json.str "S1")]] 15 1 4).missing_detail,
      p.2 = "not returned by model after 3 retry rounds") ∧
    ((generate_keyframe_prompts_batched oracleBlankR2
        [[("shot_id", Json.str "S1")]] 15 1 4).placeholders
      = (generate_keyframe_prompts_batched oracleBlankR2
          [[("shot_id", Json.str "S1")]] 15 1 4).missing.map
          (fun sid => placeholder_from_shot
            (findShot (r2AllShots [[("shot_id", Json.str "S1")]]) sid))) ∧
    (∀ s : String, Json.str s ∈ (generate_keyframe_prompts_batched oracleBlankR2
        [[("shot_id", Json.str "S1")]] 15 1 4).missing →
      ∃ p ∈ (generate_keyframe_prompts_batched oracleBlankR2
          [[("shot_id", Json.str "S1")]] 15 1 4).missing_detail,
        p.1 = Json.str s ∧ p.2 = "not returned by model after 3 retry rounds") ∧
    (∀ shot : PyDict,
      objGet (placeholder_from_shot shot) "promptv"
        = some ((objGet shot "promptv").getD ((objGet shot "action").getD (.str ""))) ∧
      objGet (placeholder_from_shot shot) "seed"
        = some ((objGet shot "seed").getD (.num "19930711"))) :=
  C9_placeholder_annotation oracleBlankR2 [[("shot_id", Json.str "S1")]] 15 1 4

/-- Counterexample to claim C9 as stated: configured with exactly one retry
round, the run exhausts its single round yet records the reason
"not returned by model after 3 retry rounds" — not "... after 1 retry
rounds" as the claim (N = configured rounds) requires. -/
theorem C9_counterexample :
    (generate_keyframe_prompts_batched oracleBlankR2
      [[("shot_id", Json.str "S1")]] 15 1 4).retry_rounds = 1 ∧
    (generate_keyframe_prompts_batched oracleBlankR2
      [[("shot_id", Json.str "S1")]] 15 1 4).missing_detail
      = [(Json.str "S1", "not returned by model after 3 retry rounds")] ∧
    "not returned by model after 3 retry rounds"
      ≠ "not returned by model after 1 retry rounds" :=
  ⟨rfl, rfl, by decide⟩
